import Mathlib

/-!
Shallow embedding of the Multiagent-Tester orchestration and verification
engine, translated from `multiagent_system/parallel_workflow.py`
(`ParallelTestingWorkflow`) and
`multiagent_system/agents/validator_agent.py` (`ValidatorAgent`).

External effects are parameters of the embedded functions: the pytest
subprocess is an `Except RunExc RunResult` value, the filesystem scan is a
`TestType → List String` map of discovered test files, and the LLM calls
(supervisor routing, validator quality decision, worker agents) are oracle
functions bundled in `Env`.  Everything the Python code computes itself is
reproduced as executable Lean definitions.
-/

deriving instance DecidableEq for Except

/-- Python `str.split("\n")`: split at every newline, keeping empty pieces
(`"".split("\n") == [""]`). -/
def splitLines : List Char → List (List Char)
  | [] => [[]]
  | c :: rest =>
    if c = '\n' then [] :: splitLines rest
    else
      match splitLines rest with
      | [] => [[c]]
      | l :: ls => (c :: l) :: ls

/-- Helper for `pyWords`: accumulates the current word (reversed). -/
def wordsAux : List Char → List Char → List (List Char)
  | acc, [] => if acc = [] then [] else [acc.reverse]
  | acc, c :: rest =>
    if c.isWhitespace then
      if acc = [] then wordsAux [] rest else acc.reverse :: wordsAux [] rest
    else wordsAux (c :: acc) rest

/-- Python `str.split()` with no argument: split on whitespace runs,
dropping empty pieces. -/
def pyWords (l : List Char) : List String :=
  (wordsAux [] l).map fun w => String.mk w

/-- Python substring test `pat in s`. -/
def hasSub : List Char → List Char → Bool
  | [], pat => pat.isEmpty
  | c :: rest, pat => pat.isPrefixOf (c :: rest) || hasSub rest pat

/-- Substring test on `String`s. -/
def containsStr (s pat : String) : Bool := hasSub s.data pat.data

/-- Value of a run of decimal digits. -/
def digitsVal (l : List Char) : Nat :=
  l.foldl (fun a c => a * 10 + (c.toNat - 48)) 0

/-- Python `int(s)` on optionally signed decimal literals with surrounding
whitespace; any other string raises `ValueError`, modelled as `none`. -/
def pyInt (s : String) : Option Int :=
  let t := ((s.data.dropWhile Char.isWhitespace).reverse.dropWhile Char.isWhitespace).reverse
  match t with
  | [] => none
  | '-' :: ds => if !ds.isEmpty && ds.all Char.isDigit then some (-(digitsVal ds : Int)) else none
  | '+' :: ds => if !ds.isEmpty && ds.all Char.isDigit then some ((digitsVal ds : Int)) else none
  | ds => if ds.all Char.isDigit then some ((digitsVal ds : Int)) else none

/-- The inner token scan of the pytest summary parser
(validator_agent.py lines 239-253 and 286-300): walk the whitespace-split
tokens with their predecessor; whenever a token contains the keyword and
has a predecessor, try to read the predecessor as the count — a failed
read leaves the current value unchanged (the `try/except: pass`). -/
def scanParts (kw : String) : Option String → List String → Int → Int
  | _, [], cur => cur
  | prev, p :: ps, cur =>
    let cur' :=
      if containsStr p kw then
        match prev with
        | some q =>
          match pyInt q with
          | some n => n
          | none => cur
        | none => cur
      else cur
    scanParts kw (some p) ps cur'

/-- One line of the pytest-output count parse: lines containing
"passed"/"failed" update the respective running count. -/
def parseLinePair (line : List Char) (pf : Int × Int) : Int × Int :=
  if hasSub line "passed".data || hasSub line "failed".data then
    let parts := pyWords line
    let p := if hasSub line "passed".data then scanParts "passed" none parts pf.1 else pf.1
    let f := if hasSub line "failed".data then scanParts "failed" none parts pf.2 else pf.2
    (p, f)
  else pf

/-- The pytest stdout count parser of `ValidatorAgent.verify_tests`: the
last successfully parsed numeric token immediately before a token
containing "passed"/"failed" wins; parser misses leave the counts at 0. -/
def parseCounts (stdout : String) : Int × Int :=
  (splitLines stdout.data).foldl (fun pf line => parseLinePair line pf) (0, 0)

/-- Literal prefix of the regex
`ModuleNotFoundError: No module named \x27([^\x27]+)\x27`. -/
def moduleErrPat : List Char := "ModuleNotFoundError: No module named \x27".data

/-- Literal prefix of the regex `ImportError: (.+)`. -/
def importErrPat : List Char := "ImportError: ".data

/-- Capture `[^\x27]*` up to a closing quote; `none` when no closing quote
follows (the regex then has no match at this position). -/
def takeUntilQuote : List Char → Option (List Char × List Char)
  | [] => none
  | c :: cs =>
    if c = '\x27' then some ([], cs)
    else
      match takeUntilQuote cs with
      | some (cap, rest) => some (c :: cap, rest)
      | none => none

/-- `re.findall` for the `ModuleNotFoundError` pattern, fuelled by the
input length (the scan position advances at every step, so fuel equal to
the input length never runs out). -/
def findModuleErrorsAux : Nat → List Char → List String
  | 0, _ => []
  | _ + 1, [] => []
  | fuel + 1, c :: rest =>
    if moduleErrPat.isPrefixOf (c :: rest) then
      match takeUntilQuote ((c :: rest).drop moduleErrPat.length) with
      | some (cap, after) =>
        if cap = [] then findModuleErrorsAux fuel rest
        else String.mk cap :: findModuleErrorsAux fuel after
      | none => findModuleErrorsAux fuel rest
    else findModuleErrorsAux fuel rest

/-- All captures of `ModuleNotFoundError: No module named \x27([^\x27]+)\x27`. -/
def findModuleErrors (l : List Char) : List String := findModuleErrorsAux l.length l

/-- Capture `(.+)` up to the end of the line: returns the captured run and
the remaining input (starting at the newline, where `re.findall` resumes). -/
def takeToEol : List Char → List Char × List Char
  | [] => ([], [])
  | c :: cs =>
    if c = '\n' then ([], c :: cs)
    else
      let r := takeToEol cs
      (c :: r.1, r.2)

/-- `re.findall` for the `ImportError: (.+)` pattern, fuelled like
`findModuleErrorsAux`. -/
def findImportErrorsAux : Nat → List Char → List String
  | 0, _ => []
  | _ + 1, [] => []
  | fuel + 1, c :: rest =>
    if importErrPat.isPrefixOf (c :: rest) then
      let r := takeToEol ((c :: rest).drop importErrPat.length)
      if r.1 = [] then findImportErrorsAux fuel rest
      else String.mk r.1 :: findImportErrorsAux fuel r.2
    else findImportErrorsAux fuel rest

/-- All captures of `ImportError: (.+)`. -/
def findImportErrors (l : List Char) : List String := findImportErrorsAux l.length l

/-- One entry of `import_analysis[\x27suggested_fixes\x27]`. -/
structure ImportFix where
  issue : String
  fix : String
  action : String
  code : Option String
deriving Repr, DecidableEq

/-- The dictionary built by `ValidatorAgent.analyze_import_errors`.
(The `ERROR collecting` file pattern is also scanned by the Python code
but its result `error_files` is never used, so it is not modelled.) -/
structure ImportAnalysis where
  has_import_errors : Bool
  missing_modules : List String
  error_details : List String
  suggested_fixes : List ImportFix
deriving Repr, DecidableEq

/-- Python `list(set(xs))` — CPython iterates a set in unspecified order;
the model fixes the first-occurrence order, on which no modelled
computation depends. -/
def dedupKeepFirst : List String → List String
  | [] => []
  | x :: xs => x :: (dedupKeepFirst xs).filter (fun y => y != x)

/-- Prefixes treated as stdlib-ish by the local-module filter. -/
def stdlibPrefixes : List String := ["sys", "os", "json", "typing", "pathlib"]

/-- The `sys.path` snippet suggested for import fixes. -/
def pathFixCode : String :=
  "import sys\nfrom pathlib import Path\nsys.path.insert(0, str(Path(\x27/path/to/source/code\x27)))"

/-- `ValidatorAgent.analyze_import_errors`: scan pytest output for the two
import-error signatures and synthesize fix suggestions. -/
def analyze_import_errors (output : String) : ImportAnalysis :=
  let module_errors := findModuleErrors output.data
  let import_errors := findImportErrors output.data
  if module_errors.isEmpty && import_errors.isEmpty then
    { has_import_errors := false, missing_modules := [], error_details := [],
      suggested_fixes := [] }
  else
    let missing_modules := dedupKeepFirst module_errors
    let error_details := missing_modules.map fun m =>
      "Module \x27" ++ m ++ "\x27 not found - tests cannot import this module"
    let suggested_fixes :=
      if missing_modules.isEmpty then []
      else
        let local_modules := missing_modules.filter fun m =>
          !(stdlibPrefixes.any fun p => p.data.isPrefixOf m.data)
        (if local_modules.isEmpty then []
         else
           [{ issue := "Tests cannot import local modules: " ++
                String.intercalate ", " local_modules,
              fix := "Add sys.path configuration to test files",
              action := "Add path configuration at the top of each test file",
              code := some pathFixCode },
            { issue := "Source code path unknown",
              fix := "Ask supervisor for source code location",
              action := "Supervisor must provide the actual path to the source code being tested",
              code := none }]) ++
        (if local_modules.any (fun m => m.data.any fun c => c = '_' || c = '-') then
           [{ issue := "Module names contain special characters",
              fix := "Verify correct module names",
              action := "Test agents may be using wrong module names - check actual file names in source",
              code := none }]
         else [])
    { has_import_errors := true, missing_modules := missing_modules,
      error_details := error_details, suggested_fixes := suggested_fixes }

/-- The three test categories handled by `verify_tests` (`test_dirs` keys,
in insertion order unit, functional, integration). -/
inductive TestType where
  | unit
  | functional
  | integration
deriving Repr, DecidableEq

/-- `test_dirs` values. -/
def TestType.dirName : TestType → String
  | .unit => "unit_tests"
  | .functional => "functional_tests"
  | .integration => "integration_tests"

/-- The dictionary key / error-message prefix of a category. -/
def TestType.typeName : TestType → String
  | .unit => "unit"
  | .functional => "functional"
  | .integration => "integration"

/-- Iteration order of the `test_dirs` dictionary. -/
def allTypes : List TestType := [.unit, .functional, .integration]

/-- Outcome of a completed `subprocess.run(["pytest", ...])` call. -/
structure RunResult where
  stdout : String
  stderr : String
  returncode : Int
deriving Repr, DecidableEq

/-- Exceptions a `subprocess.run` call can raise, each carrying its
`str(e)` rendering. -/
inductive RunExc where
  | timeout (msg : String)
  | toolMissing (msg : String)
  | other (msg : String)
deriving Repr, DecidableEq

/-- Python `str(e)`. -/
def RunExc.str : RunExc → String
  | .timeout m => m
  | .toolMissing m => m
  | .other m => m

/-- The message the aggregate-run exception handlers of `verify_tests`
append to the error list (`TimeoutExpired` / `FileNotFoundError` /
generic `Exception`). -/
def aggExcMsg : RunExc → String
  | .timeout _ => "Test execution timed out"
  | .toolMissing _ => "pytest not found - cannot verify tests"
  | .other m => "Error running tests: " ++ m

/-- One `verification[\x27by_type\x27]` record.  The source field named
`exists` is called `texists` here (`exists` is reserved in Lean). -/
structure TypeResult where
  files : List String
  passed : Int
  failed : Int
  total : Int
  texists : Bool
deriving Repr, DecidableEq

/-- The `verification` dictionary returned by
`ValidatorAgent.verify_tests`.  `import_analysis` is `none` exactly when
the Python dictionary lacks the key (early return, or aggregate-run
exception). -/
structure Verification where
  files_found : List String
  files_missing : List String
  execution_success : Bool
  tests_passed : Int
  tests_failed : Int
  tests_total : Int
  errors : List String
  output : String
  by_type : TestType → TypeResult
  import_analysis : Option ImportAnalysis

/-- The per-category phase of `verify_tests` (lines 222-261): skip absent
categories; on a completed pytest run parse the counts from its stdout;
on an exception record an error entry and leave the counts at 0. -/
def typeVerify (t : TestType) (files : List String) (run : Except RunExc RunResult) :
    TypeResult × List String :=
  if files.isEmpty then
    ({ files := [], passed := 0, failed := 0, total := 0, texists := false }, [])
  else
    match run with
    | .ok r =>
      let pf := parseCounts r.stdout
      ({ files := files, passed := pf.1, failed := pf.2, total := pf.1 + pf.2,
         texists := true }, [])
    | .error e =>
      ({ files := files, passed := 0, failed := 0, total := 0, texists := true },
       [t.typeName ++ " tests error: " ++ e.str])

/-- `ValidatorAgent.verify_tests`.  Parameters stand for the external
effects: `fs t` is the `glob("test_*.py")` result of category `t`
(relative paths; an absent directory gives `[]`), `typeRun t` the
per-category pytest invocation, `aggRun` the whole-output-dir pytest
invocation. -/
def verify_tests (fs : TestType → List String)
    (typeRun : TestType → Except RunExc RunResult)
    (aggRun : Except RunExc RunResult) : Verification :=
  let files_found := (allTypes.map fs).flatten
  if files_found.isEmpty then
    { files_found := [], files_missing := [], execution_success := false,
      tests_passed := 0, tests_failed := 0, tests_total := 0,
      errors := ["No test files found"], output := "",
      by_type := fun _ => { files := [], passed := 0, failed := 0, total := 0, texists := false },
      import_analysis := none }
  else
    let tv := fun t => typeVerify t (fs t) (typeRun t)
    let typeErrors := (allTypes.map fun t => (tv t).2).flatten
    match aggRun with
    | .ok r =>
      let out := r.stdout ++ r.stderr
      let ia := analyze_import_errors out
      let iaErrors := if ia.has_import_errors then ia.error_details else []
      let pf := parseCounts r.stdout
      { files_found := files_found, files_missing := [],
        execution_success := r.returncode == 0,
        tests_passed := pf.1, tests_failed := pf.2, tests_total := pf.1 + pf.2,
        errors := typeErrors ++ iaErrors, output := out,
        by_type := fun t => (tv t).1,
        import_analysis := some ia }
    | .error e =>
      { files_found := files_found, files_missing := [],
        execution_success := false,
        tests_passed := 0, tests_failed := 0, tests_total := 0,
        errors := typeErrors ++ [aggExcMsg e], output := "",
        by_type := fun t => (tv t).1,
        import_analysis := none }

/-- The structured output the validator LLM returns
(`models/decisions.py`, `ValidatorDecision`). -/
structure ValidatorDecision where
  next : String
  reason : String
deriving Repr, DecidableEq

/-- The routing outcome of `ValidatorAgent.process`: the `goto` target and
the reason message, as the list of its text chunks in source order. -/
structure RoutingOutcome where
  goto : String
  reason : List String
deriving Repr, DecidableEq

/-- `verification.get("import_analysis", \x7b\x7d).get("has_import_errors", False)`. -/
def hasImportErrorsOf (v : Verification) : Bool :=
  match v.import_analysis with
  | some ia => ia.has_import_errors
  | none => false

/-- The suggested fixes of the import analysis, empty when absent. -/
def suggestedFixesOf (v : Verification) : List ImportFix :=
  match v.import_analysis with
  | some ia => ia.suggested_fixes
  | none => []

/-- The chunks the f-string loop of `process` adds per fix. -/
def fixChunks (fx : ImportFix) : List String :=
  ["Issue: " ++ fx.issue, "Fix: " ++ fx.fix, "Action: " ++ fx.action] ++
    (match fx.code with
     | some c => ["Code to add:\n" ++ c]
     | none => [])

/-- The `import_error_section` string of `process` (lines 357-375), as its
chunk list. -/
def import_error_section (v : Verification) : List String :=
  match v.import_analysis with
  | some ia =>
    if ia.has_import_errors then
      ["IMPORT ERRORS DETECTED:", "========================",
       "Missing Modules: " ++ String.intercalate ", " ia.missing_modules,
       "SUGGESTED FIXES:"] ++ (ia.suggested_fixes.map fixChunks).flatten
    else []
  | none => []

/-- The deterministic reason built on the automatic supervisor route of
`process` (lines 412-424), as its chunk list. -/
def deterministicReason (v : Verification) : List String :=
  ["TESTS CANNOT EXECUTE - Import errors preventing test collection."] ++
    import_error_section v ++
    ["REQUIRED FIXES:",
     "The test files need to be fixed before they can run. Route to the appropriate test agent(s) to:"] ++
    (suggestedFixesOf v).map (fun fx => "  - " ++ fx.action) ++
    ["Verification details:",
     "- Files found: " ++ toString v.files_found.length,
     "- Tests collected: " ++ toString v.tests_total,
     "- Errors: " ++ toString v.errors.length]

/-- The routing step of `ValidatorAgent.process` (lines 405-452): blocking
import-errors together with zero collected tests route to the supervisor without
consulting the LLM; every other verification outcome is delegated to the
LLM decision `llm`, whose `FINISH` answer is translated to `__end__`. -/
def process (v : Verification) (llm : ValidatorDecision) : RoutingOutcome :=
  let has_import_errors := hasImportErrorsOf v
  let tests_collected := v.tests_total
  if has_import_errors && tests_collected == 0 then
    { goto := "supervisor", reason := deterministicReason v }
  else
    let goto := llm.next
    { goto := if goto == "FINISH" then "__end__" else goto,
      reason := ["VERIFIED RESULTS: " ++ toString v.tests_passed ++ "/" ++
        toString v.tests_total ++ " tests passing. " ++ llm.reason] }

/-- The result dictionary `ParallelTestingWorkflow._run_agent_async`
produces for one worker task.  Message contents are opaque strings. -/
structure WorkerResult where
  agent : String
  success : Bool
  messages : List String
  error : Option String
deriving Repr, DecidableEq

/-- The `Command` a validator call returns, reduced to the fields the
workflow reads: the routing target and the update messages. -/
structure ValidatorCmd where
  goto : String
  messages : List String
deriving Repr, DecidableEq

/-- One entry of `all_iterations` (the dictionary appended at lines
274-279 of parallel_workflow.py). -/
structure IterationRecord where
  iteration : Nat
  results : List WorkerResult
  validation : Option ValidatorCmd
  tests_executable : Bool
deriving Repr, DecidableEq

/-- The external collaborators of `run_parallel`, indexed by iteration
number: worker agents may produce messages or raise, the supervisor and
validator LLM calls return their decisions, and `iter1TimedOut` tells
whether the 600 s aggregate barrier of iteration 1 fired. -/
structure Env where
  iter1TimedOut : Bool
  worker : Nat → String → Except String (List String)
  supervisorGoto : Nat → String
  supervisorMsgs : Nat → List String
  validatorCmd : Nat → ValidatorCmd

/-- `ParallelTestingWorkflow._run_agent_async` (lines 48-85): run one
agent, catching any exception and converting it into a failed
`WorkerResult` instead of propagating it. -/
def run_agent_async (env : Env) (iter : Nat) (agentName : String) : WorkerResult :=
  match env.worker iter agentName with
  | .ok msgs => { agent := agentName, success := true, messages := msgs, error := none }
  | .error e => { agent := agentName, success := false, messages := [], error := some e }

/-- The `agent_map` dictionary of the fix loop (lines 206-210). -/
def agent_map : String → Option String
  | "unit_tester" => some "UnitTester"
  | "functional_tester" => some "FunctionalTester"
  | "integration_tester" => some "IntegrationTester"
  | _ => none

/-- The three workers fanned out by iteration 1 (lines 152-154). -/
def parallelAgents : List String := ["UnitTester", "FunctionalTester", "IntegrationTester"]

/-- The local variables of the `run_parallel` while loop.  `results` and
`successful_results` persist across iterations exactly as Python locals
do (the fix loop leaves them untouched when the previous iteration had no
validation).  `dispatch_log` is ghost instrumentation: the agents whose
tasks were started in each iteration, in iteration order. -/
structure LoopState where
  iteration : Nat
  tests_can_execute : Bool
  results : List WorkerResult
  successful_results : List WorkerResult
  all_iterations : List IterationRecord
  all_messages : List String
  dispatch_log : List (List String)

/-- Outcome of the dispatch phase of one iteration. -/
structure DispatchOut where
  results : List WorkerResult
  successful : List WorkerResult
  newMsgs : List String
  dispatched : List String

/-- The stale dispatch outcome of a fix iteration whose previous record
has no usable validator feedback: the Python locals `results` and
`successful_results` keep their previous values and nothing runs. -/
def staleOut (st : LoopState) : DispatchOut :=
  { results := st.results, successful := st.successful_results,
    newMsgs := [], dispatched := [] }

/-- `all_iterations[-1].get("validation")`, or `none` when the history is
empty. -/
def prevValidation (st : LoopState) : Option ValidatorCmd :=
  match st.all_iterations.getLast? with
  | some r => r.validation
  | none => none

/-- The dispatch phase of iteration `st.iteration + 1`: iteration 1 fans
out all three workers behind the 600 s barrier (on timeout the except
handler discards the gathered results, lines 159-161); later iterations
re-dispatch the single agent the supervisor picked from the previous
validator feedback, or nothing when that feedback or agent is missing
(in which case `results`/`successful_results` keep their previous
values). -/
def dispatchPhase (env : Env) (st : LoopState) : DispatchOut :=
  if st.iteration + 1 = 1 then
    let results := if env.iter1TimedOut then [] else parallelAgents.map (run_agent_async env 1)
    let successful := results.filter (·.success)
    { results := results, successful := successful,
      newMsgs := env.supervisorMsgs 1 ++ (successful.map (·.messages)).flatten,
      dispatched := parallelAgents }
  else
    match prevValidation st with
    | some v =>
      if v.messages.isEmpty then staleOut st
      else
        match agent_map (env.supervisorGoto (st.iteration + 1)) with
        | some agentName =>
          let fix_result := run_agent_async env (st.iteration + 1) agentName
          if fix_result.success then
            { results := [fix_result], successful := [fix_result],
              newMsgs := fix_result.messages, dispatched := [agentName] }
          else
            { results := [fix_result], successful := [],
              newMsgs := [], dispatched := [agentName] }
        | none =>
          { results := [], successful := [], newMsgs := [], dispatched := [] }
    | none => staleOut st

/-- The validation phase (lines 233-271): skipped when the dispatch phase
produced no successful result. -/
def validationOf (env : Env) (st : LoopState) : Option ValidatorCmd :=
  if (dispatchPhase env st).successful.isEmpty then none
  else some (env.validatorCmd (st.iteration + 1))

/-- `tests_can_execute` after the iteration: set from the validator
decision when validation ran, otherwise unchanged. -/
def tceAfter (env : Env) (st : LoopState) : Bool :=
  if (dispatchPhase env st).successful.isEmpty then st.tests_can_execute
  else (env.validatorCmd (st.iteration + 1)).goto == "__end__"

/-- The `IterationRecord` appended at the end of the iteration. -/
def recordOf (env : Env) (st : LoopState) : IterationRecord :=
  { iteration := st.iteration + 1,
    results := (dispatchPhase env st).results,
    validation := validationOf env st,
    tests_executable := tceAfter env st }

/-- `all_messages` after the iteration: the dispatch phase's additions,
then the validator's update messages when validation ran. -/
def messagesAfter (env : Env) (st : LoopState) : List String :=
  st.all_messages ++ (dispatchPhase env st).newMsgs ++
    (if (dispatchPhase env st).successful.isEmpty then []
     else (env.validatorCmd (st.iteration + 1)).messages)

/-- One pass of the `run_parallel` while-loop body. -/
def stepIter (env : Env) (st : LoopState) : LoopState :=
  { iteration := st.iteration + 1,
    tests_can_execute := tceAfter env st,
    results := (dispatchPhase env st).results,
    successful_results := (dispatchPhase env st).successful,
    all_iterations := st.all_iterations ++ [recordOf env st],
    all_messages := messagesAfter env st,
    dispatch_log := st.dispatch_log ++ [(dispatchPhase env st).dispatched] }

/-- The loop `while iteration < max_iterations and not tests_can_execute`;
the fuel starts at `max_iterations` and equals
`max_iterations - iteration` throughout. -/
def runLoop (env : Env) : Nat → LoopState → LoopState
  | 0, st => st
  | fuel + 1, st =>
    if st.tests_can_execute then st
    else runLoop env fuel (stepIter env st)

/-- The loop state at entry (lines 104-113): `all_messages` starts with
the user request. -/
def initState (userInput : String) : LoopState :=
  { iteration := 0, tests_can_execute := false, results := [],
    successful_results := [], all_iterations := [], all_messages := [userInput],
    dispatch_log := [] }

/-- The fields of the dictionary `run_parallel` returns that the core
produces itself (the report agent, an external collaborator invoked once
after the loop, is not modelled). -/
structure SessionResult where
  iterations : List IterationRecord
  total_iterations : Nat
  tests_executable : Bool
  validation : Option ValidatorCmd
  all_messages : List String
  dispatch_log : List (List String)

/-- `ParallelTestingWorkflow.run_parallel` (lines 87-301): run the bounded
dispatch/verify loop and return the accumulated session data.  The
returned `validation` is the last iteration's `validation_result`
variable, i.e. the validation of the last appended record. -/
def run_parallel (env : Env) (userInput : String) (max_iterations : Nat) : SessionResult :=
  let final := runLoop env max_iterations (initState userInput)
  { iterations := final.all_iterations,
    total_iterations := final.iteration,
    tests_executable := final.tests_can_execute,
    validation := final.all_iterations.getLast?.bind (·.validation),
    all_messages := final.all_messages,
    dispatch_log := final.dispatch_log }

/-- Specification-side characterization of the count parser: the values of
all numeric tokens standing immediately before a keyword-containing token,
walking a token list with its predecessor. -/
def scanValues (kw : String) : Option String → List String → List Int
  | _, [] => []
  | prev, p :: ps =>
    (match prev with
     | some q =>
       if containsStr p kw then
         match pyInt q with
         | some n => [n]
         | none => []
       else []
     | none => []) ++ scanValues kw (some p) ps

/-- All numeric-token-before-keyword values of an output text. -/
def allKwValues (kw : String) (stdout : String) : List Int :=
  ((splitLines stdout.data).map fun line => scanValues kw none (pyWords line)).flatten

/-- Loop invariant: the ghost dispatch log has one entry per executed
iteration, the first is the full fan-out, and every later entry names at
most the one agent the supervisor picked for that iteration. -/
def LogInv (env : Env) (st : LoopState) : Prop :=
  st.dispatch_log.length = st.iteration ∧
  (1 ≤ st.iteration → st.dispatch_log.getD 0 [] = parallelAgents) ∧
  ∀ k, 1 ≤ k → (st.dispatch_log.getD k []).length ≤ 1 ∧
    ∀ a ∈ st.dispatch_log.getD k [], agent_map (env.supervisorGoto (k + 1)) = some a

/-- Loop invariant: `successful_results` is always the successful subset of
`results`, the history is numbered `1..iteration` in order, and a record
whose dispatch phase produced no successful results carries no validation. -/
def HistInv (st : LoopState) : Prop :=
  st.successful_results = st.results.filter (·.success) ∧
  st.all_iterations.map (·.iteration) = List.range' 1 st.iteration ∧
  ∀ r ∈ st.all_iterations, r.results.filter (·.success) = [] → r.validation = none

/-- Oracle in which every worker of every iteration raises. -/
def envAllFail : Env :=
  { iter1TimedOut := false,
    worker := fun _ _ => .error "boom",
    supervisorGoto := fun _ => "unit_tester",
    supervisorMsgs := fun _ => ["sup"],
    validatorCmd := fun _ => { goto := "supervisor", messages := ["feedback"] } }

/-- Oracle in which every worker completes successfully but the iteration-1
aggregate barrier times out. -/
def envTimeout : Env :=
  { iter1TimedOut := true,
    worker := fun _ _ => .ok ["tests written"],
    supervisorGoto := fun _ => "unit_tester",
    supervisorMsgs := fun _ => ["sup"],
    validatorCmd := fun _ => { goto := "supervisor", messages := ["feedback"] } }

/-- Oracle for a fix round: iteration 1 succeeds but the validator routes
to the supervisor, iteration 2 re-dispatches the unit tester and the
validator then terminates. -/
def envFix : Env :=
  { iter1TimedOut := false,
    worker := fun _ _ => .ok ["content"],
    supervisorGoto := fun _ => "unit_tester",
    supervisorMsgs := fun _ => ["sup"],
    validatorCmd := fun i =>
      if i = 1 then { goto := "supervisor", messages := ["fb"] }
      else { goto := "__end__", messages := ["ok"] } }

/-- Oracle in which the unit tester raises and the other two workers
succeed. -/
def envMixed : Env :=
  { iter1TimedOut := false,
    worker := fun _ a => if a = "UnitTester" then .error "ValueError: boom" else .ok ["content"],
    supervisorGoto := fun _ => "unit_tester",
    supervisorMsgs := fun _ => ["sup"],
    validatorCmd := fun _ => { goto := "__end__", messages := ["ok"] } }

/-- A validator LLM answer choosing FINISH. -/
def dFinish : ValidatorDecision := { next := "FINISH", reason := "done" }

/-- A validator LLM answer choosing the supervisor. -/
def dSup : ValidatorDecision := { next := "supervisor", reason := "needs work" }

/-- A pytest output carrying a missing-module signature. -/
def outSig : String := "ModuleNotFoundError: No module named \x27tasks\x27"

/-- A verification outcome with blocking import errors and zero collected
tests. -/
def vBlock : Verification :=
  { files_found := ["unit_tests/test_models.py"], files_missing := [],
    execution_success := false, tests_passed := 0, tests_failed := 0,
    tests_total := 0, errors := ["Module \x27tasks\x27 not found - tests cannot import this module"],
    output := outSig,
    by_type := fun _ => { files := [], passed := 0, failed := 0, total := 0, texists := false },
    import_analysis := some (analyze_import_errors outSig) }

/-- Discovered files for a witness verification run: unit tests only. -/
def fsUnitOnly : TestType → List String
  | .unit => ["unit_tests/test_models.py"]
  | .functional => []
  | .integration => []

/-- A completed pytest run with empty output. -/
def okEmptyRun : Except RunExc RunResult := .ok { stdout := "", stderr := "", returncode := 0 }

/-- A pytest summary output with both counts present. -/
def demoOut : String := "===== 1 failed, 2 passed in 0.12s ====="

/-- A pytest output with no count tokens at all. -/
def demoNoCounts : String := "no tests ran in 0.01s"

theorem stepIter_iteration (env : Env) (st : LoopState) :
    (stepIter env st).iteration = st.iteration + 1 := rfl

theorem stepIter_log (env : Env) (st : LoopState) :
    (stepIter env st).dispatch_log = st.dispatch_log ++ [(dispatchPhase env st).dispatched] := rfl

theorem stepIter_history (env : Env) (st : LoopState) :
    (stepIter env st).all_iterations = st.all_iterations ++ [recordOf env st] := rfl

theorem runLoop_of_tce (env : Env) :
    ∀ fuel (st : LoopState), st.tests_can_execute = true → runLoop env fuel st = st
  | 0, _, _ => rfl
  | _ + 1, _, h => by simp [runLoop, h]

theorem runLoop_iteration_le (env : Env) :
    ∀ fuel (st : LoopState), (runLoop env fuel st).iteration ≤ st.iteration + fuel
  | 0, st => Nat.le_refl _
  | fuel + 1, st => by
    rw [runLoop]
    by_cases h : st.tests_can_execute = true
    · rw [if_pos h]; exact Nat.le_add_right _ _
    · rw [if_neg h]
      have ih := runLoop_iteration_le env fuel (stepIter env st)
      rw [stepIter_iteration] at ih
      omega

theorem runLoop_iteration_of_not_tce (env : Env) :
    ∀ fuel (st : LoopState), (runLoop env fuel st).tests_can_execute = false →
      (runLoop env fuel st).iteration = st.iteration + fuel
  | 0, _, _ => rfl
  | fuel + 1, st, h => by
    rw [runLoop] at h ⊢
    by_cases hst : st.tests_can_execute = true
    · rw [if_pos hst] at h; rw [hst] at h; cases h
    · rw [if_neg hst] at h ⊢
      have ih := runLoop_iteration_of_not_tce env fuel (stepIter env st) h
      rw [stepIter_iteration] at ih
      omega

theorem tceAfter_eq_true (env : Env) (st : LoopState) (h0 : st.tests_can_execute = false)
    (h : tceAfter env st = true) :
    (env.validatorCmd (st.iteration + 1)).goto = "__end__" := by
  unfold tceAfter at h
  by_cases hs : (dispatchPhase env st).successful.isEmpty = true
  · rw [if_pos hs, h0] at h; cases h
  · rw [if_neg hs] at h
    exact eq_of_beq h

theorem runLoop_exit_goto (env : Env) :
    ∀ fuel (st : LoopState), st.tests_can_execute = false →
      (runLoop env fuel st).tests_can_execute = true →
      (env.validatorCmd (runLoop env fuel st).iteration).goto = "__end__"
  | 0, st, h0, h => by rw [runLoop] at h; rw [h0] at h; cases h
  | fuel + 1, st, h0, h => by
    rw [runLoop] at h ⊢
    rw [if_neg (by rw [h0]; exact Bool.false_ne_true)] at h ⊢
    by_cases h1 : (stepIter env st).tests_can_execute = true
    · rw [runLoop_of_tce env fuel _ h1] at h ⊢
      rw [stepIter_iteration]
      exact tceAfter_eq_true env st h0 h1
    · exact runLoop_exit_goto env fuel (stepIter env st)
        (Bool.eq_false_iff.mpr h1) h

theorem runLoop_history_append (env : Env) :
    ∀ fuel (st : LoopState), ∃ t, (runLoop env fuel st).all_iterations = st.all_iterations ++ t
  | 0, st => ⟨[], (List.append_nil _).symm⟩
  | fuel + 1, st => by
    rw [runLoop]
    by_cases h : st.tests_can_execute = true
    · rw [if_pos h]; exact ⟨[], (List.append_nil _).symm⟩
    · rw [if_neg h]
      obtain ⟨t, ht⟩ := runLoop_history_append env fuel (stepIter env st)
      refine ⟨recordOf env st :: t, ?_⟩
      rw [ht, stepIter_history]
      simp

theorem dispatchPhase_first (env : Env) (st : LoopState) (h : st.iteration = 0) :
    (dispatchPhase env st).dispatched = parallelAgents ∧
    (dispatchPhase env st).results =
      (if env.iter1TimedOut then [] else parallelAgents.map (run_agent_async env 1)) := by
  unfold dispatchPhase
  rw [if_pos (by omega)]
  exact ⟨rfl, rfl⟩

theorem dispatchPhase_dispatched_later (env : Env) (st : LoopState) (h : st.iteration ≠ 0) :
    (dispatchPhase env st).dispatched = [] ∨
    ∃ a, agent_map (env.supervisorGoto (st.iteration + 1)) = some a ∧
      (dispatchPhase env st).dispatched = [a] := by
  unfold dispatchPhase
  rw [if_neg (by omega)]
  cases prevValidation st with
  | none => exact Or.inl rfl
  | some v =>
    dsimp only
    by_cases hm : v.messages.isEmpty = true
    · rw [if_pos hm]; exact Or.inl rfl
    · rw [if_neg hm]
      cases ha : agent_map (env.supervisorGoto (st.iteration + 1)) with
      | none => exact Or.inl rfl
      | some a =>
        refine Or.inr ⟨a, rfl, ?_⟩
        dsimp only
        by_cases hs : (run_agent_async env (st.iteration + 1) a).success = true
        · rw [if_pos hs]
        · rw [if_neg hs]

theorem dispatchPhase_successful_filter (env : Env) (st : LoopState)
    (h : st.successful_results = st.results.filter (·.success)) :
    (dispatchPhase env st).successful = (dispatchPhase env st).results.filter (·.success) := by
  unfold dispatchPhase
  by_cases h1 : st.iteration + 1 = 1
  · rw [if_pos h1]
  · rw [if_neg h1]
    cases prevValidation st with
    | none => exact h
    | some v =>
      dsimp only
      by_cases hm : v.messages.isEmpty = true
      · rw [if_pos hm]; exact h
      · rw [if_neg hm]
        cases agent_map (env.supervisorGoto (st.iteration + 1)) with
        | none => rfl
        | some agentName =>
          dsimp only
          by_cases hs : (run_agent_async env (st.iteration + 1) agentName).success = true
          · rw [if_pos hs]; simp [List.filter_cons, hs]
          · rw [if_neg hs]; simp [List.filter_cons, hs]

theorem range'_one_concat (n : Nat) :
    List.range' 1 (n + 1) = List.range' 1 n ++ [n + 1] := by
  rw [List.range'_concat]; simp [Nat.add_comm]

theorem stepIter_histInv (env : Env) (st : LoopState) (h : HistInv st) :
    HistInv (stepIter env st) := by
  obtain ⟨h1, h2, h3⟩ := h
  refine ⟨dispatchPhase_successful_filter env st h1, ?_, ?_⟩
  · show (st.all_iterations ++ [recordOf env st]).map (·.iteration) =
      List.range' 1 (st.iteration + 1)
    rw [List.map_append, h2, range'_one_concat]
    rfl
  · intro r hr
    rw [stepIter_history] at hr
    rcases List.mem_append.mp hr with h' | h'
    · exact h3 r h'
    · have hre : r = recordOf env st := by simpa using h'
      subst hre
      intro hf
      have hf' : (dispatchPhase env st).successful = [] := by
        rw [dispatchPhase_successful_filter env st h1]
        exact hf
      show validationOf env st = none
      simp [validationOf, hf']

theorem runLoop_histInv (env : Env) :
    ∀ fuel (st : LoopState), HistInv st → HistInv (runLoop env fuel st)
  | 0, _, h => h
  | fuel + 1, st, h => by
    rw [runLoop]
    by_cases h1 : st.tests_can_execute = true
    · rw [if_pos h1]; exact h
    · rw [if_neg h1]; exact runLoop_histInv env fuel _ (stepIter_histInv env st h)

theorem stepIter_logInv (env : Env) (st : LoopState) (h : LogInv env st) :
    LogInv env (stepIter env st) := by
  obtain ⟨hlen, h0, hk⟩ := h
  have hlog : (stepIter env st).dispatch_log =
      st.dispatch_log ++ [(dispatchPhase env st).dispatched] := rfl
  have hit : (stepIter env st).iteration = st.iteration + 1 := rfl
  refine ⟨?_, ?_, ?_⟩
  · rw [hlog, hit]; simp [hlen]
  · intro _
    rw [hlog]
    rcases Nat.eq_zero_or_pos st.iteration with hi | hi
    · have hnil : st.dispatch_log = [] := List.length_eq_zero.mp (by rw [hlen, hi])
      rw [hnil, List.nil_append]
      have hd := (dispatchPhase_first env st hi).1
      simp [hd]
    · rw [List.getD_append _ _ _ _ (by omega)]
      exact h0 hi
  · intro k hk1
    rw [hlog]
    rcases Nat.lt_trichotomy k st.dispatch_log.length with hlt | heq | hgt
    · rw [List.getD_append _ _ _ _ hlt]
      exact hk k hk1
    · have hgetD : (st.dispatch_log ++ [(dispatchPhase env st).dispatched]).getD k [] =
          (dispatchPhase env st).dispatched := by
        rw [List.getD_append_right _ _ _ _ (Nat.le_of_eq heq.symm), heq, Nat.sub_self]
        rfl
      rw [hgetD]
      have hne : st.iteration ≠ 0 := by omega
      have hkit : k = st.iteration := by omega
      rcases dispatchPhase_dispatched_later env st hne with hd | ⟨a, ha, hd⟩
      · rw [hd]; exact ⟨by simp, by simp⟩
      · rw [hd]
        refine ⟨by simp, ?_⟩
        intro a' ha'
        have haa : a' = a := by simpa using ha'
        subst haa
        rw [hkit]
        exact ha
    · rw [List.getD_eq_default _ _ (by simp; omega)]
      exact ⟨by simp, by simp⟩

theorem runLoop_logInv (env : Env) :
    ∀ fuel (st : LoopState), LogInv env st → LogInv env (runLoop env fuel st)
  | 0, _, h => h
  | fuel + 1, st, h => by
    rw [runLoop]
    by_cases h1 : st.tests_can_execute = true
    · rw [if_pos h1]; exact h
    · rw [if_neg h1]; exact runLoop_logInv env fuel _ (stepIter_logInv env st h)

theorem run_parallel_first_record (env : Env) (ui : String) (m : Nat) (hm : 1 ≤ m) :
    (run_parallel env ui m).iterations.getD 0 ⟨0, [], none, false⟩ =
      recordOf env (initState ui) := by
  obtain ⟨k, rfl⟩ : ∃ k, m = k + 1 := ⟨m - 1, by omega⟩
  show (runLoop env (k + 1) (initState ui)).all_iterations.getD 0 _ = _
  rw [runLoop, if_neg (by simp [initState])]
  obtain ⟨t, ht⟩ := runLoop_history_append env k (stepIter env (initState ui))
  rw [ht, stepIter_history]
  show (((initState ui).all_iterations ++ [recordOf env (initState ui)]) ++ t).getD 0 _ = _
  simp [initState]

/-- Claim C3: for every `maxIterations ≥ 1` and every worker/validator
behavior, `run_parallel` executes at most `maxIterations` dispatch+verify
iterations; it leaves the loop early only when the validator decision of
the exit iteration is the terminal `__end__`, and exhausting the budget
returns normally (with `tests_executable = false`) rather than raising. -/
theorem run_parallel_bounded_iterations (env : Env) (ui : String) (m : Nat) (hm : 1 ≤ m) :
    (run_parallel env ui m).total_iterations ≤ m ∧
    ((run_parallel env ui m).total_iterations < m →
      (run_parallel env ui m).tests_executable = true ∧
      (env.validatorCmd (run_parallel env ui m).total_iterations).goto = "__end__") ∧
    ((run_parallel env ui m).tests_executable = false →
      (run_parallel env ui m).total_iterations = m) := by
  have e1 : (run_parallel env ui m).total_iterations =
      (runLoop env m (initState ui)).iteration := rfl
  have e2 : (run_parallel env ui m).tests_executable =
      (runLoop env m (initState ui)).tests_can_execute := rfl
  rw [e1, e2]
  have hz : (initState ui).iteration = 0 := rfl
  refine ⟨?_, ?_, ?_⟩
  · have h := runLoop_iteration_le env m (initState ui)
    rw [hz] at h
    omega
  · intro hlt
    by_cases htce : (runLoop env m (initState ui)).tests_can_execute = true
    · exact ⟨htce, runLoop_exit_goto env m (initState ui) rfl htce⟩
    · have h := runLoop_iteration_of_not_tce env m (initState ui) (Bool.eq_false_iff.mpr htce)
      rw [hz] at h
      omega
  · intro hf
    have h := runLoop_iteration_of_not_tce env m (initState ui) hf
    rw [hz] at h
    omega

/-- Witness for C3 at a concrete oracle: with `envFix` the validator
terminates the session in iteration 2 of a budget of 3. -/
theorem run_parallel_bounded_iterations_witness :
    (run_parallel envFix "req" 3).total_iterations ≤ 3 ∧
    (run_parallel envFix "req" 3).tests_executable = true ∧
    (envFix.validatorCmd (run_parallel envFix "req" 3).total_iterations).goto = "__end__" :=
  ⟨(run_parallel_bounded_iterations envFix "req" 3 (by decide)).1,
   ((run_parallel_bounded_iterations envFix "req" 3 (by decide)).2.1 (by decide)).1,
   ((run_parallel_bounded_iterations envFix "req" 3 (by decide)).2.1 (by decide)).2⟩

/-- Claim C6 (amended): a run of N iterations appends exactly N
IterationRecords numbered 1..N in order, and the loop only ever appends
to the history (never removes or rewrites a record); a record is appended
even for an iteration whose dispatch phase produced zero successful
results, but such a record carries the dispatch phase's raw result list
(possibly non-empty failed results, or the stale previous list) and no
validation at all — the validator is skipped, so no VerificationReport is
attached. -/
theorem run_parallel_history_append_only (env : Env) (ui : String) (m : Nat) :
    (run_parallel env ui m).iterations.length = (run_parallel env ui m).total_iterations ∧
    (run_parallel env ui m).iterations.map (·.iteration) =
      List.range' 1 (run_parallel env ui m).total_iterations ∧
    (∀ fuel st, ∃ t, (runLoop env fuel st).all_iterations = st.all_iterations ++ t) ∧
    ∀ r ∈ (run_parallel env ui m).iterations,
      r.results.filter (·.success) = [] → r.validation = none := by
  have hinv : HistInv (runLoop env m (initState ui)) :=
    runLoop_histInv env m _ ⟨rfl, rfl, fun r hr => (List.not_mem_nil r hr).elim⟩
  obtain ⟨hi1, hi2, hi3⟩ := hinv
  have e1 : (run_parallel env ui m).iterations =
      (runLoop env m (initState ui)).all_iterations := rfl
  have e2 : (run_parallel env ui m).total_iterations =
      (runLoop env m (initState ui)).iteration := rfl
  rw [e1, e2]
  refine ⟨?_, hi2, runLoop_history_append env, hi3⟩
  have h := congrArg List.length hi2
  simpa using h

/-- Claim C6 counterexample: when every iteration-1 worker raises, the
dispatch phase produces zero successful results, yet the appended record
holds three failed WorkerResults (not an empty list) and no
VerificationReport at all. -/
theorem run_parallel_history_counterexample :
    ¬ (∀ r ∈ (run_parallel envAllFail "req" 1).iterations,
        r.results.filter (·.success) = [] → (r.results = [] ∧ r.validation ≠ none)) := by
  decide

/-- Witness for the amended C6 at a concrete oracle. -/
theorem run_parallel_history_append_only_witness :
    (run_parallel envAllFail "req" 1).iterations.length =
      (run_parallel envAllFail "req" 1).total_iterations ∧
    ((run_parallel envAllFail "req" 1).iterations.getD 0 ⟨0, [], none, false⟩).validation = none :=
  ⟨(run_parallel_history_append_only envAllFail "req" 1).1,
   (run_parallel_history_append_only envAllFail "req" 1).2.2.2
     ((run_parallel envAllFail "req" 1).iterations.getD 0 ⟨0, [], none, false⟩)
     (by decide) (by decide)⟩

/-- Claim C7 (amended): iteration 1 is the only full parallel fan-out; in
every later iteration at most one worker is dispatched, and when one is,
it is exactly the agent selected by the supervisor's routing decision of
that iteration (an iteration whose previous record lacks validator
feedback, or whose supervisor decision names no tester agent, dispatches
no worker at all). -/
theorem run_parallel_targeted_dispatch (env : Env) (ui : String) (m : Nat) :
    (1 ≤ (run_parallel env ui m).total_iterations →
      (run_parallel env ui m).dispatch_log.getD 0 [] = parallelAgents) ∧
    ∀ k, 1 ≤ k →
      ((run_parallel env ui m).dispatch_log.getD k []).length ≤ 1 ∧
      ∀ a ∈ (run_parallel env ui m).dispatch_log.getD k [],
        agent_map (env.supervisorGoto (k + 1)) = some a := by
  have hnil : ∀ j, (([] : List (List String)).getD j ([] : List String)) = [] :=
    fun j => List.getD_eq_default _ _ (by simp)
  have hinv : LogInv env (runLoop env m (initState ui)) :=
    runLoop_logInv env m _
      ⟨rfl, fun h => absurd h (by simp [initState]),
       fun k _ => by rw [show (initState ui).dispatch_log = [] from rfl, hnil]
                     exact ⟨by simp, by simp⟩⟩
  obtain ⟨_, hl2, hl3⟩ := hinv
  have e1 : (run_parallel env ui m).dispatch_log =
      (runLoop env m (initState ui)).dispatch_log := rfl
  have e2 : (run_parallel env ui m).total_iterations =
      (runLoop env m (initState ui)).iteration := rfl
  rw [e1, e2]
  exact ⟨hl2, hl3⟩

/-- Claim C7 counterexample: a second iteration happens (budget 2, the
validator never approves) and dispatches zero workers — not exactly one —
because iteration 1 ended with no validation to act on. -/
theorem run_parallel_targeted_dispatch_counterexample :
    (run_parallel envAllFail "req" 2).total_iterations = 2 ∧
    ((run_parallel envAllFail "req" 2).dispatch_log.getD 1 []).length ≠ 1 := by
  decide

/-- Witness for the amended C7 at a concrete oracle: iteration 2 of
`envFix` dispatches exactly the supervisor-selected unit tester. -/
theorem run_parallel_targeted_dispatch_witness :
    (run_parallel envFix "req" 2).dispatch_log.getD 0 [] = parallelAgents ∧
    ((run_parallel envFix "req" 2).dispatch_log.getD 1 []).length ≤ 1 ∧
    agent_map (envFix.supervisorGoto 2) = some "UnitTester" :=
  ⟨(run_parallel_targeted_dispatch envFix "req" 2).1 (by decide),
   ((run_parallel_targeted_dispatch envFix "req" 2).2 1 (by decide)).1,
   ((run_parallel_targeted_dispatch envFix "req" 2).2 1 (by decide)).2 "UnitTester" (by decide)⟩

/-- Claim C5: in an iteration-1 batch that reaches the barrier in time,
a worker that raises is surfaced as a `success = false` WorkerResult
carrying its error detail, while a sibling that succeeds still yields its
`success = true` WorkerResult — one task's exception neither propagates
nor removes the other's result. -/
theorem run_parallel_fault_isolation (env : Env) (ui : String) (m : Nat) (hm : 1 ≤ m)
    (ht : env.iter1TimedOut = false) (nameA nameB : String)
    (hA : nameA ∈ parallelAgents) (hB : nameB ∈ parallelAgents)
    (eA : String) (msgsB : List String)
    (hwA : env.worker 1 nameA = .error eA) (hwB : env.worker 1 nameB = .ok msgsB) :
    ({ agent := nameB, success := true, messages := msgsB, error := none } : WorkerResult) ∈
      ((run_parallel env ui m).iterations.getD 0 ⟨0, [], none, false⟩).results ∧
    ({ agent := nameA, success := false, messages := [], error := some eA } : WorkerResult) ∈
      ((run_parallel env ui m).iterations.getD 0 ⟨0, [], none, false⟩).results := by
  rw [run_parallel_first_record env ui m hm]
  have hres : (recordOf env (initState ui)).results =
      parallelAgents.map (run_agent_async env 1) := by
    have hd := (dispatchPhase_first env (initState ui) rfl).2
    show (dispatchPhase env (initState ui)).results = _
    rw [hd, if_neg (by rw [ht]; exact Bool.false_ne_true)]
  rw [hres]
  constructor
  · have hrB : run_agent_async env 1 nameB =
        { agent := nameB, success := true, messages := msgsB, error := none } := by
      rw [run_agent_async, hwB]
    exact hrB ▸ List.mem_map_of_mem _ hB
  · have hrA : run_agent_async env 1 nameA =
        { agent := nameA, success := false, messages := [], error := some eA } := by
      rw [run_agent_async, hwA]
    exact hrA ▸ List.mem_map_of_mem _ hA

/-- Witness for C5 at a concrete oracle: the unit tester raises while the
functional tester succeeds. -/
theorem run_parallel_fault_isolation_witness :
    ({ agent := "FunctionalTester", success := true, messages := ["content"],
       error := none } : WorkerResult) ∈
      ((run_parallel envMixed "req" 1).iterations.getD 0 ⟨0, [], none, false⟩).results ∧
    ({ agent := "UnitTester", success := false, messages := [],
       error := some "ValueError: boom" } : WorkerResult) ∈
      ((run_parallel envMixed "req" 1).iterations.getD 0 ⟨0, [], none, false⟩).results :=
  run_parallel_fault_isolation envMixed "req" 1 (by decide) (by decide)
    "UnitTester" "FunctionalTester" (by decide) (by decide)
    "ValueError: boom" ["content"] (by decide) (by decide)

/-- Claim C2 (code evaluation): when the iteration-1 aggregate timeout
fires, the except handler sets `results = []`, so the recorded batch
result list is empty even though all three dispatched workers completed
successfully — no already-available WorkerResult is returned. -/
theorem run_parallel_timeout_discards_results :
    (run_parallel envTimeout "req" 1).dispatch_log = [parallelAgents] ∧
    (∀ a ∈ parallelAgents, envTimeout.worker 1 a = .ok ["tests written"]) ∧
    ((run_parallel envTimeout "req" 1).iterations.getD 0 ⟨0, [], none, false⟩).results = [] := by
  decide

theorem typeVerify_total (t : TestType) (files : List String) (run : Except RunExc RunResult) :
    (typeVerify t files run).1.total =
      (typeVerify t files run).1.passed + (typeVerify t files run).1.failed := by
  unfold typeVerify
  by_cases hf : files.isEmpty = true
  · rw [if_pos hf]; rfl
  · rw [if_neg hf]
    cases run <;> rfl

/-- Claim C4: every verification result satisfies
`tests_total = tests_passed + tests_failed`, in every per-category record
and in the aggregate counts, for every filesystem and pytest outcome. -/
theorem verify_tests_count_invariant (fs : TestType → List String)
    (typeRun : TestType → Except RunExc RunResult) (aggRun : Except RunExc RunResult) :
    (verify_tests fs typeRun aggRun).tests_total =
      (verify_tests fs typeRun aggRun).tests_passed +
        (verify_tests fs typeRun aggRun).tests_failed ∧
    ∀ t : TestType,
      ((verify_tests fs typeRun aggRun).by_type t).total =
        ((verify_tests fs typeRun aggRun).by_type t).passed +
          ((verify_tests fs typeRun aggRun).by_type t).failed := by
  unfold verify_tests
  by_cases h : ((allTypes.map fs).flatten).isEmpty = true
  · rw [if_pos h]
    exact ⟨rfl, fun t => rfl⟩
  · rw [if_neg h]
    cases aggRun with
    | ok r => exact ⟨rfl, fun t => typeVerify_total t (fs t) (typeRun t)⟩
    | error e => exact ⟨rfl, fun t => typeVerify_total t (fs t) (typeRun t)⟩

/-- Claim C10: with no `test_*.py` file in any category directory,
`verify_tests` returns immediately with the single raw error
"No test files found", zero counts, `execution_success = false` and
without import diagnostics at all; consequently the blocking condition of
`process` defaults to false, the deterministic supervisor route is not
taken, and the decision is delegated to the LLM despite zero collected
tests. -/
theorem verify_tests_no_files_delegates (fs : TestType → List String)
    (typeRun : TestType → Except RunExc RunResult) (aggRun : Except RunExc RunResult)
    (d : ValidatorDecision) (h : ∀ t, fs t = []) :
    (verify_tests fs typeRun aggRun).errors = ["No test files found"] ∧
    (verify_tests fs typeRun aggRun).tests_total = 0 ∧
    (verify_tests fs typeRun aggRun).execution_success = false ∧
    (verify_tests fs typeRun aggRun).import_analysis = none ∧
    hasImportErrorsOf (verify_tests fs typeRun aggRun) = false ∧
    (process (verify_tests fs typeRun aggRun) d).goto =
      (if d.next == "FINISH" then "__end__" else d.next) := by
  have hff : ((allTypes.map fs).flatten).isEmpty = true := by
    simp [allTypes, h]
  unfold verify_tests
  rw [if_pos hff]
  refine ⟨rfl, rfl, rfl, rfl, rfl, ?_⟩
  unfold process hasImportErrorsOf
  rfl

/-- Witness for C10 at the empty filesystem and a concrete LLM answer. -/
theorem verify_tests_no_files_delegates_witness :
    (verify_tests (fun _ => []) (fun _ => okEmptyRun) okEmptyRun).errors =
      ["No test files found"] ∧
    (verify_tests (fun _ => []) (fun _ => okEmptyRun) okEmptyRun).tests_total = 0 ∧
    (verify_tests (fun _ => []) (fun _ => okEmptyRun) okEmptyRun).execution_success = false ∧
    (verify_tests (fun _ => []) (fun _ => okEmptyRun) okEmptyRun).import_analysis = none ∧
    hasImportErrorsOf (verify_tests (fun _ => []) (fun _ => okEmptyRun) okEmptyRun) = false ∧
    (process (verify_tests (fun _ => []) (fun _ => okEmptyRun) okEmptyRun) dSup).goto =
      (if dSup.next == "FINISH" then "__end__" else dSup.next) :=
  verify_tests_no_files_delegates (fun _ => []) (fun _ => okEmptyRun) okEmptyRun dSup
    (fun _ => rfl)

theorem findModuleErrorsAux_nil_of_no_sub :
    ∀ fuel (l : List Char), hasSub l moduleErrPat = false → findModuleErrorsAux fuel l = []
  | 0, _, _ => rfl
  | _ + 1, [], _ => rfl
  | fuel + 1, c :: rest, h => by
    rw [hasSub, Bool.or_eq_false_iff] at h
    rw [findModuleErrorsAux, if_neg (by rw [h.1]; exact Bool.false_ne_true)]
    exact findModuleErrorsAux_nil_of_no_sub fuel rest h.2

theorem findImportErrorsAux_nil_of_no_sub :
    ∀ fuel (l : List Char), hasSub l importErrPat = false → findImportErrorsAux fuel l = []
  | 0, _, _ => rfl
  | _ + 1, [], _ => rfl
  | fuel + 1, c :: rest, h => by
    rw [hasSub, Bool.or_eq_false_iff] at h
    rw [findImportErrorsAux, if_neg (by rw [h.1]; exact Bool.false_ne_true)]
    exact findImportErrorsAux_nil_of_no_sub fuel rest h.2

theorem analyze_requires_signature (out : String)
    (h : (analyze_import_errors out).has_import_errors = true) :
    hasSub out.data moduleErrPat = true ∨ hasSub out.data importErrPat = true := by
  by_cases h1 : hasSub out.data moduleErrPat = true
  · exact Or.inl h1
  · by_cases h2 : hasSub out.data importErrPat = true
    · exact Or.inr h2
    · exfalso
      have hm : findModuleErrors out.data = [] :=
        findModuleErrorsAux_nil_of_no_sub _ _ (Bool.eq_false_iff.mpr h1)
      have hi : findImportErrors out.data = [] :=
        findImportErrorsAux_nil_of_no_sub _ _ (Bool.eq_false_iff.mpr h2)
      rw [analyze_import_errors, hm, hi] at h
      simp at h

theorem verify_tests_agg_error (fs : TestType → List String)
    (typeRun : TestType → Except RunExc RunResult) (e : RunExc)
    (hne : ((allTypes.map fs).flatten).isEmpty = false) :
    (verify_tests fs typeRun (.error e)).execution_success = false ∧
    aggExcMsg e ∈ (verify_tests fs typeRun (.error e)).errors ∧
    (verify_tests fs typeRun (.error e)).import_analysis = none := by
  unfold verify_tests
  rw [if_neg (by rw [hne]; exact Bool.false_ne_true)]
  refine ⟨rfl, ?_, rfl⟩
  show aggExcMsg e ∈ _ ++ [aggExcMsg e]
  simp

theorem hasImportErrorsOf_none (v : Verification) (h : v.import_analysis = none) :
    hasImportErrorsOf v = false := by
  unfold hasImportErrorsOf
  rw [h]

theorem process_delegates (v : Verification) (d : ValidatorDecision)
    (h : hasImportErrorsOf v = false) :
    (process v d).goto = (if d.next == "FINISH" then "__end__" else d.next) := by
  unfold process
  rw [h]
  rfl

/-- Claim C8: a timeout of (or absence of) the test-execution tool on the
aggregate run gives `execution_success = false` with an explanatory raw
error entry and no import diagnostics at all, hence never a blocking
classification nor the deterministic supervisor route — the decision is
still delegated to the LLM; and a blocking classification
(`has_import_errors`) can only arise from an actual import-error
signature in the tool output. -/
theorem verify_tests_timeout_nonblocking (fs : TestType → List String)
    (typeRun : TestType → Except RunExc RunResult) (msg : String) (d : ValidatorDecision)
    (hne : ((allTypes.map fs).flatten).isEmpty = false) :
    ((verify_tests fs typeRun (.error (.timeout msg))).execution_success = false ∧
     "Test execution timed out" ∈ (verify_tests fs typeRun (.error (.timeout msg))).errors ∧
     (verify_tests fs typeRun (.error (.timeout msg))).import_analysis = none ∧
     hasImportErrorsOf (verify_tests fs typeRun (.error (.timeout msg))) = false ∧
     (process (verify_tests fs typeRun (.error (.timeout msg))) d).goto =
       (if d.next == "FINISH" then "__end__" else d.next)) ∧
    ((verify_tests fs typeRun (.error (.toolMissing msg))).execution_success = false ∧
     "pytest not found - cannot verify tests" ∈
       (verify_tests fs typeRun (.error (.toolMissing msg))).errors ∧
     (verify_tests fs typeRun (.error (.toolMissing msg))).import_analysis = none ∧
     hasImportErrorsOf (verify_tests fs typeRun (.error (.toolMissing msg))) = false) ∧
    ∀ out : String, (analyze_import_errors out).has_import_errors = true →
      hasSub out.data moduleErrPat = true ∨ hasSub out.data importErrPat = true := by
  have ht := verify_tests_agg_error fs typeRun (.timeout msg) hne
  have hmi := verify_tests_agg_error fs typeRun (.toolMissing msg) hne
  refine ⟨⟨ht.1, ht.2.1, ht.2.2, hasImportErrorsOf_none _ ht.2.2, ?_⟩,
          ⟨hmi.1, hmi.2.1, hmi.2.2, hasImportErrorsOf_none _ hmi.2.2⟩,
          analyze_requires_signature⟩
  exact process_delegates _ d (hasImportErrorsOf_none _ ht.2.2)

/-- Witness for C8 at a concrete filesystem, timeout and output. -/
theorem verify_tests_timeout_nonblocking_witness :
    (verify_tests fsUnitOnly (fun _ => okEmptyRun) (.error (.timeout "t"))).execution_success =
      false ∧
    "Test execution timed out" ∈
      (verify_tests fsUnitOnly (fun _ => okEmptyRun) (.error (.timeout "t"))).errors ∧
    (hasSub outSig.data moduleErrPat = true ∨ hasSub outSig.data importErrPat = true) :=
  ⟨((verify_tests_timeout_nonblocking fsUnitOnly (fun _ => okEmptyRun) "t" dSup
      (by decide)).1).1,
   ((verify_tests_timeout_nonblocking fsUnitOnly (fun _ => okEmptyRun) "t" dSup
      (by decide)).1).2.1,
   (verify_tests_timeout_nonblocking fsUnitOnly (fun _ => okEmptyRun) "t" dSup
      (by decide)).2.2 outSig (by decide)⟩

/-- Claim C1: when the verification reports blocking import errors
(`has_import_errors = true`) and zero collected tests, `process` routes
deterministically to the supervisor with a rationale enumerating every
suggested fix (its issue, fix and action lines all appear in the reason),
and the LLM decision is never consulted — the outcome is identical for
any two LLM oracles. -/
theorem process_blocking_route_deterministic (v : Verification) (d d' : ValidatorDecision)
    (h1 : hasImportErrorsOf v = true) (h2 : v.tests_total = 0) :
    (process v d).goto = "supervisor" ∧
    process v d = process v d' ∧
    ∀ fx ∈ suggestedFixesOf v,
      ("Issue: " ++ fx.issue) ∈ (process v d).reason ∧
      ("Fix: " ++ fx.fix) ∈ (process v d).reason ∧
      ("Action: " ++ fx.action) ∈ (process v d).reason ∧
      ("  - " ++ fx.action) ∈ (process v d).reason := by
  have hcond : (hasImportErrorsOf v && (v.tests_total == 0)) = true := by
    rw [h1, h2]; rfl
  have hp : ∀ e : ValidatorDecision, process v e =
      { goto := "supervisor", reason := deterministicReason v } := by
    intro e
    unfold process
    simp only [hcond, if_true]
  refine ⟨by rw [hp d], by rw [hp d, hp d'], ?_⟩
  intro fx hfx
  rw [hp d]
  obtain ⟨ia, hia⟩ : ∃ ia, v.import_analysis = some ia := by
    cases hcase : v.import_analysis with
    | none => rw [hasImportErrorsOf, hcase] at h1; cases h1
    | some ia => exact ⟨ia, rfl⟩
  have hie : ia.has_import_errors = true := by
    rw [hasImportErrorsOf, hia] at h1; exact h1
  have hsf : suggestedFixesOf v = ia.suggested_fixes := by
    rw [suggestedFixesOf, hia]
  have hsec : import_error_section v =
      ["IMPORT ERRORS DETECTED:", "========================",
       "Missing Modules: " ++ String.intercalate ", " ia.missing_modules,
       "SUGGESTED FIXES:"] ++ (ia.suggested_fixes.map fixChunks).flatten := by
    rw [import_error_section, hia]
    dsimp only
    rw [if_pos hie]
  have hfx' : fx ∈ ia.suggested_fixes := hsf ▸ hfx
  have hin_sec : ∀ x, x ∈ import_error_section v → x ∈ deterministicReason v := by
    intro x hx
    unfold deterministicReason
    simp only [List.mem_append]
    tauto
  have hchunk : ∀ x, x ∈ fixChunks fx → x ∈ deterministicReason v := by
    intro x hx
    refine hin_sec x ?_
    rw [hsec]
    refine List.mem_append.mpr (Or.inr ?_)
    exact List.mem_flatten.mpr ⟨fixChunks fx, List.mem_map_of_mem _ hfx', hx⟩
  refine ⟨hchunk _ (by simp [fixChunks]), hchunk _ (by simp [fixChunks]),
          hchunk _ (by simp [fixChunks]), ?_⟩
  have hmap : ("  - " ++ fx.action) ∈
      (suggestedFixesOf v).map (fun fx => "  - " ++ fx.action) := by
    rw [hsf]
    exact List.mem_map_of_mem _ hfx'
  unfold deterministicReason
  simp only [List.mem_append]
  tauto

/-- Witness for C1 at a concrete blocking verification and two different
LLM oracles. -/
theorem process_blocking_route_deterministic_witness :
    (process vBlock dFinish).goto = "supervisor" ∧
    process vBlock dFinish = process vBlock dSup ∧
    ("  - " ++ ((suggestedFixesOf vBlock).getD 0 ⟨"", "", "", none⟩).action) ∈
      (process vBlock dFinish).reason :=
  ⟨(process_blocking_route_deterministic vBlock dFinish dSup (by decide) (by decide)).1,
   (process_blocking_route_deterministic vBlock dFinish dSup (by decide) (by decide)).2.1,
   ((process_blocking_route_deterministic vBlock dFinish dSup (by decide) (by decide)).2.2
     ((suggestedFixesOf vBlock).getD 0 ⟨"", "", "", none⟩) (by decide)).2.2.2⟩

theorem scanParts_mem (kw : String) (parts : List String) :
    ∀ (prev : Option String) (cur : Int),
      scanParts kw prev parts cur = cur ∨
        scanParts kw prev parts cur ∈ scanValues kw prev parts := by
  induction parts with
  | nil => intro _ _; exact Or.inl rfl
  | cons p ps ih =>
    intro prev cur
    rw [scanParts.eq_def, scanValues.eq_def]
    dsimp only
    cases prev with
    | none =>
      rw [ite_self, List.nil_append]
      exact ih (some p) cur
    | some q =>
      dsimp only
      by_cases hc : containsStr p kw = true
      · rw [if_pos hc, if_pos hc]
        cases hpi : pyInt q with
        | none =>
          rw [List.nil_append]
          exact ih (some p) cur
        | some n =>
          rcases ih (some p) n with h | h
          · rw [h]
            exact Or.inr (List.mem_append.mpr (Or.inl (by simp)))
          · exact Or.inr (List.mem_append.mpr (Or.inr h))
      · rw [if_neg hc, if_neg hc, List.nil_append]
        exact ih (some p) cur

theorem scanParts_of_values_nil (kw : String) (parts : List String) :
    ∀ (prev : Option String) (cur : Int), scanValues kw prev parts = [] →
      scanParts kw prev parts cur = cur := by
  induction parts with
  | nil => intro _ _ _; rfl
  | cons p ps ih =>
    intro prev cur hv
    rw [scanValues.eq_def] at hv
    dsimp only at hv
    rw [scanParts.eq_def]
    dsimp only
    have h2 : scanValues kw (some p) ps = [] := (List.append_eq_nil.mp hv).2
    cases prev with
    | none =>
      rw [ite_self]
      exact ih (some p) cur h2
    | some q =>
      dsimp only at hv ⊢
      by_cases hc : containsStr p kw = true
      · rw [if_pos hc]
        rw [if_pos hc] at hv
        cases hpi : pyInt q with
        | none => exact ih (some p) cur h2
        | some n =>
          rw [hpi] at hv
          simp at hv
      · rw [if_neg hc]
        exact ih (some p) cur h2

theorem parseLinePair_fst (line : List Char) (pf : Int × Int) :
    (parseLinePair line pf).1 =
      (if hasSub line "passed".data = true then scanParts "passed" none (pyWords line) pf.1
       else pf.1) := by
  unfold parseLinePair
  by_cases hp : hasSub line "passed".data = true
  · rw [if_pos (by rw [hp]; rfl)]
  · rw [if_neg hp]
    by_cases hf : hasSub line "failed".data = true
    · rw [if_pos (by rw [hf]; simp)]
      dsimp only
      rw [if_neg hp]
    · rw [if_neg (by simp [hp, hf])]

theorem parseLinePair_snd (line : List Char) (pf : Int × Int) :
    (parseLinePair line pf).2 =
      (if hasSub line "failed".data = true then scanParts "failed" none (pyWords line) pf.2
       else pf.2) := by
  unfold parseLinePair
  by_cases hf : hasSub line "failed".data = true
  · rw [if_pos (by rw [hf]; simp)]
  · rw [if_neg hf]
    by_cases hp : hasSub line "passed".data = true
    · rw [if_pos (by rw [hp]; rfl)]
      dsimp only
      rw [if_neg hf]
    · rw [if_neg (by simp [hp, hf])]

theorem fold_parse_fst (lines : List (List Char)) :
    ∀ pf : Int × Int,
      ((lines.foldl (fun pf line => parseLinePair line pf) pf).1 = pf.1 ∨
        (lines.foldl (fun pf line => parseLinePair line pf) pf).1 ∈
          (lines.map fun line => scanValues "passed" none (pyWords line)).flatten) ∧
      ((∀ line ∈ lines, scanValues "passed" none (pyWords line) = []) →
        (lines.foldl (fun pf line => parseLinePair line pf) pf).1 = pf.1) := by
  induction lines with
  | nil => intro pf; exact ⟨Or.inl rfl, fun _ => rfl⟩
  | cons l ls ih =>
    intro pf
    rw [List.foldl_cons, List.map_cons, List.flatten_cons]
    constructor
    · rcases (ih (parseLinePair l pf)).1 with h | h
      · rw [h, parseLinePair_fst]
        by_cases hp : hasSub l "passed".data = true
        · rw [if_pos hp]
          rcases scanParts_mem "passed" (pyWords l) none pf.1 with h' | h'
          · exact Or.inl h'
          · exact Or.inr (List.mem_append.mpr (Or.inl h'))
        · rw [if_neg hp]; exact Or.inl rfl
      · exact Or.inr (List.mem_append.mpr (Or.inr h))
    · intro hz
      have h1 : scanValues "passed" none (pyWords l) = [] := hz l (by simp)
      have h2 : ∀ line ∈ ls, scanValues "passed" none (pyWords line) = [] :=
        fun line hml => hz line (by simp [hml])
      rw [(ih (parseLinePair l pf)).2 h2, parseLinePair_fst]
      by_cases hp : hasSub l "passed".data = true
      · rw [if_pos hp]
        exact scanParts_of_values_nil "passed" (pyWords l) none pf.1 h1
      · rw [if_neg hp]

theorem fold_parse_snd (lines : List (List Char)) :
    ∀ pf : Int × Int,
      ((lines.foldl (fun pf line => parseLinePair line pf) pf).2 = pf.2 ∨
        (lines.foldl (fun pf line => parseLinePair line pf) pf).2 ∈
          (lines.map fun line => scanValues "failed" none (pyWords line)).flatten) ∧
      ((∀ line ∈ lines, scanValues "failed" none (pyWords line) = []) →
        (lines.foldl (fun pf line => parseLinePair line pf) pf).2 = pf.2) := by
  induction lines with
  | nil => intro pf; exact ⟨Or.inl rfl, fun _ => rfl⟩
  | cons l ls ih =>
    intro pf
    rw [List.foldl_cons, List.map_cons, List.flatten_cons]
    constructor
    · rcases (ih (parseLinePair l pf)).1 with h | h
      · rw [h, parseLinePair_snd]
        by_cases hf : hasSub l "failed".data = true
        · rw [if_pos hf]
          rcases scanParts_mem "failed" (pyWords l) none pf.2 with h' | h'
          · exact Or.inl h'
          · exact Or.inr (List.mem_append.mpr (Or.inl h'))
        · rw [if_neg hf]; exact Or.inl rfl
      · exact Or.inr (List.mem_append.mpr (Or.inr h))
    · intro hz
      have h1 : scanValues "failed" none (pyWords l) = [] := hz l (by simp)
      have h2 : ∀ line ∈ ls, scanValues "failed" none (pyWords line) = [] :=
        fun line hml => hz line (by simp [hml])
      rw [(ih (parseLinePair l pf)).2 h2, parseLinePair_snd]
      by_cases hf : hasSub l "failed".data = true
      · rw [if_pos hf]
        exact scanParts_of_values_nil "failed" (pyWords l) none pf.2 h1
      · rw [if_neg hf]

/-- Claim C9: each count produced by the pytest output parser is either 0
or the value of a numeric token standing immediately before a token
containing the literal keyword "passed"/"failed" on some line of the
output; whenever no such numeric token exists anywhere, the count is 0
(parser misses fall back to zero); and the parser is a total function —
a failed numeric read is swallowed, never raised. -/
theorem parseCounts_heuristic (out : String) :
    ((parseCounts out).1 = 0 ∨ (parseCounts out).1 ∈ allKwValues "passed" out) ∧
    ((parseCounts out).2 = 0 ∨ (parseCounts out).2 ∈ allKwValues "failed" out) ∧
    (allKwValues "passed" out = [] → (parseCounts out).1 = 0) ∧
    (allKwValues "failed" out = [] → (parseCounts out).2 = 0) := by
  have h1 := fold_parse_fst (splitLines out.data) (0, 0)
  have h2 := fold_parse_snd (splitLines out.data) (0, 0)
  have hall : ∀ kw : String, allKwValues kw out = [] →
      ∀ line ∈ splitLines out.data, scanValues kw none (pyWords line) = [] := by
    intro kw hz line hl
    refine List.eq_nil_iff_forall_not_mem.mpr ?_
    intro x hx
    have hmem : x ∈ allKwValues kw out := by
      unfold allKwValues
      exact List.mem_flatten.mpr ⟨_, List.mem_map_of_mem _ hl, hx⟩
    rw [hz] at hmem
    cases hmem
  exact ⟨h1.1, h2.1, fun hz => h1.2 (hall "passed" hz), fun hz => h2.2 (hall "failed" hz)⟩

/-- Witness for C9: a real summary line yields a value of the heuristic,
and an output with no counts parses to zero. -/
theorem parseCounts_heuristic_witness :
    ((parseCounts demoOut).1 = 0 ∨ (parseCounts demoOut).1 ∈ allKwValues "passed" demoOut) ∧
    (parseCounts demoNoCounts).1 = 0 ∧ (parseCounts demoNoCounts).2 = 0 :=
  ⟨(parseCounts_heuristic demoOut).1,
   (parseCounts_heuristic demoNoCounts).2.2.1 (by decide),
   (parseCounts_heuristic demoNoCounts).2.2.2 (by decide)⟩
